import Mathlib

/-!
Verification of the architecture state model and symbolic formula engine of the
nnet-matrix-viz repository (single source file src/src/App.jsx).

Definitions in this file are shallow embeddings of the coration source:

* constants MIN_NODES, MAX_NODES, MAX_LAYERS and defaultLayers (App.jsx 66-78);
* computeParams (App.jsx 161-171);
* seedVal (App.jsx 173-176), modelled over the real numbers;
* the LossPanel selection logic (App.jsx 391-397);
* the layer mutation callbacks addLayer, removeLayer, updateNodes, updateAct
  (App.jsx 772-794) together with the guards the LayerCard component places
  in front of them (App.jsx 725-741);
* the composition string builder compTex (App.jsx 797-807);
* real-valued readings of the cross-entropy and focal-loss gradient formula
  templates (App.jsx 90 and 128).
-/

namespace NNet

/-- ActivationKind: the five activation tags of the ACT table (App.jsx 53-64).
The ACTIVATIONS list offered for hidden layers (App.jsx 51) excludes Softmax. -/
inductive Activation where
  | ReLU
  | Sigmoid
  | Tanh
  | Linear
  | Softmax
deriving DecidableEq

/-- LayerSpec: one entry of the layers array, `\x7b nodes, activation \x7d`. -/
structure Layer where
  nodes : Nat
  activation : Activation
deriving DecidableEq

/-- MIN_NODES constant (App.jsx 68). -/
def MIN_NODES : Nat := 1

/-- MAX_NODES constant (App.jsx 67). -/
def MAX_NODES : Nat := 8

/-- MAX_LAYERS constant (App.jsx 69). -/
def MAX_LAYERS : Nat := 6

/-- defaultLayers (App.jsx 71-78): widths 3, 5, 4, 2. -/
def defaultLayers : List Layer :=
  [⟨3, .Linear⟩, ⟨5, .ReLU⟩, ⟨4, .Tanh⟩, ⟨2, .Softmax⟩]

/-- One row of the computeParams breakdown (App.jsx 168). -/
structure Transition where
  layer : Nat
  nin : Nat
  nout : Nat
  W : Nat
  B : Nat
deriving DecidableEq

/-- Result record of computeParams (App.jsx 170). -/
structure ParamCount where
  totalW : Nat
  totalB : Nat
  total : Nat
  breakdown : List Transition
deriving DecidableEq

/-- Loop body of computeParams (App.jsx 164-169): walks index i over the layer
list keeping the previous layer, accumulating weight and bias totals and the
per-transition breakdown. -/
def computeParamsGo (i : Nat) (prev : Layer) : List Layer → Nat × Nat × List Transition
  | [] => (0, 0, [])
  | l :: rest =>
    let W := prev.nodes * l.nodes
    let B := l.nodes
    let r := computeParamsGo (i + 1) l rest
    (W + r.1, B + r.2.1, ⟨i, prev.nodes, l.nodes, W, B⟩ :: r.2.2)

/-- computeParams (App.jsx 161-171). -/
def computeParams : List Layer → ParamCount
  | [] => ⟨0, 0, 0, []⟩
  | l :: rest =>
    let r := computeParamsGo 1 l rest
    ⟨r.1, r.2.1, r.1 + r.2.1, r.2.2⟩

/-- Clamp of `nodes + delta` into [MIN_NODES, MAX_NODES] (App.jsx 788):
`Math.max(MIN_NODES, Math.min(MAX_NODES, l.nodes + delta))`. -/
def clampNodes (w : Nat) (delta : Int) : Nat :=
  (max (MIN_NODES : Int) (min (MAX_NODES : Int) ((w : Int) + delta))).toNat

/-- Shared shape of updateNodes and updateAct (App.jsx 786-794): both map over
the layer list replacing exactly the entry whose index equals idx. -/
def mapAtIdx (f : Layer → Layer) (idx : Nat) : Nat → List Layer → List Layer
  | _, [] => []
  | i, l :: rest => (if i = idx then f l else l) :: mapAtIdx f idx (i + 1) rest

/-- updateNodes (App.jsx 786-790): resizeLayer of the spec. -/
def updateNodes (layers : List Layer) (idx : Nat) (delta : Int) : List Layer :=
  mapAtIdx (fun l => { l with nodes := clampNodes l.nodes delta }) idx 0 layers

/-- updateAct (App.jsx 792-794): the unguarded activation replacement. -/
def updateAct (layers : List Layer) (idx : Nat) (a : Activation) : List Layer :=
  mapAtIdx (fun l => { l with activation := a }) idx 0 layers

/-- Indexed filter of removeLayer (App.jsx 782): `prev.filter((_, i) => i !== idx)`. -/
def removeLayerGo (idx : Nat) : Nat → List Layer → List Layer
  | _, [] => []
  | i, l :: rest =>
    if i = idx then removeLayerGo idx (i + 1) rest else l :: removeLayerGo idx (i + 1) rest

/-- removeLayer (App.jsx 781-784), restricted to the layers value it filters. -/
def removeLayer (layers : List Layer) (idx : Nat) : List Layer :=
  removeLayerGo idx 0 layers

/-- Error taxonomy of the spec; the UI realises InvalidOperation as a control
that is absent or inert. -/
inductive ModelError where
  | InvalidOperation
  | IndexOutOfRange
deriving DecidableEq

/-- removeHiddenLayer: composite of the LayerCard guards (App.jsx 735-741: the
remove button exists only for indices that are neither input nor output, and
its click handler is inert while isAtMinLayers, i.e. layers.length <= 3,
App.jsx 768) with the removeLayer filter (App.jsx 781-784). -/
def removeHiddenLayer (layers : List Layer) (idx : Nat) : Except ModelError (List Layer) :=
  if idx = 0 ∨ idx = layers.length - 1 ∨ layers.length ≤ 3 then
    .error .InvalidOperation
  else
    .ok (removeLayer layers idx)

/-- setActivation: composite of the LayerCard guards (App.jsx 725-733: the
activation select exists only for hidden layers; the output layer shows a fixed
Softmax badge and the input layer no control at all) with updateAct
(App.jsx 792-794). -/
def setActivation (layers : List Layer) (idx : Nat) (a : Activation) :
    Except ModelError (List Layer) :=
  if idx = 0 ∨ idx = layers.length - 1 then
    .error .InvalidOperation
  else
    .ok (updateAct layers idx a)

/-- Default shape of a freshly inserted hidden layer (App.jsx 776). -/
def newHiddenLayer : Layer := ⟨4, .ReLU⟩

/-- addLayer (App.jsx 772-779): returns unchanged at isAtMaxLayers
(App.jsx 767: n >= MAX_LAYERS), otherwise splices the new hidden layer in at
position length - 1, immediately before the output layer. -/
def addLayer (layers : List Layer) : List Layer :=
  if MAX_LAYERS ≤ layers.length then layers
  else layers.take (layers.length - 1) ++ newHiddenLayer :: layers.drop (layers.length - 1)

/-- Keys of the LOSSES registry (App.jsx 82-158). -/
inductive LossId where
  | ce
  | bce
  | focal
  | ls
deriving DecidableEq

/-- requiresBinary flags of the four descriptors (App.jsx 87, 107, 125, 143). -/
def requiresBinary : LossId → Bool
  | .bce => true
  | _ => false

/-- Loss selector click handler (App.jsx 392 and 414): the click is dropped
when isDisabled, i.e. when the descriptor requiresBinary and K is not 2. -/
def selectLoss (lossKey : LossId) (K : Nat) (id : LossId) : LossId :=
  if requiresBinary id = true ∧ K ≠ 2 then lossKey else id

/-- Reconciliation effect (App.jsx 395-397): when the active descriptor
requiresBinary and K is not 2, the selection is forced back to ce. -/
def architectureChanged (lossKey : LossId) (K : Nat) : LossId :=
  if requiresBinary lossKey = true ∧ K ≠ 2 then .ce else lossKey

/-- Display names used in the activation subscript (App.jsx 51, 802). -/
def actName : Activation → String
  | .ReLU => "ReLU"
  | .Sigmoid => "Sigmoid"
  | .Tanh => "Tanh"
  | .Linear => "Linear"
  | .Softmax => "Softmax"

/-- Wrapper head chosen per activation (App.jsx 801-803): `\operatorname\x7bsoftmax\x7d`
for Softmax, otherwise a named activation-subscript sigma symbol. -/
def actWrapperTex : Activation → String
  | .Softmax => "\\operatorname\x7bsoftmax\x7d"
  | a => "\\sigma_\x7b\\scriptscriptstyle\\text\x7b" ++ actName a ++ "\x7d\x7d"

/-- One affine-then-activation wrapper of the compTex loop body (App.jsx 804). -/
def wrapTex (i : Nat) (a : Activation) (inner : String) : String :=
  actWrapperTex a ++ "\\!\\bigl(W^\x7b(" ++ toString i ++ ")\x7d" ++ inner
    ++ " + b^\x7b(" ++ toString i ++ ")\x7d\\bigr)"

/-- Descending loop of compTex (App.jsx 799-805). The loop runs i from n - 1
down to 1 and wraps the accumulator at every step, so iteration i = n - 1 is
applied first and therefore sits innermost: the built string is
wrap 1 (wrap 2 (... wrap (n-1) "x")). This recursion over the transition list
(layers[1..]) carrying the index produces exactly that nesting. -/
def compTexGo (i : Nat) : List Layer → String
  | [] => "x"
  | l :: rest => wrapTex i l.activation (compTexGo (i + 1) rest)

/-- compTex (App.jsx 797-807). -/
def compTex (layers : List Layer) : String :=
  "f(x) = " ++ compTexGo 1 (layers.drop 1)

/-- Three-layer architecture used to exercise compTex: one hidden ReLU layer
and the Softmax output, i.e. two transitions with activations ReLU, Softmax. -/
def threeLayerNet : List Layer :=
  [⟨3, .Linear⟩, ⟨5, .ReLU⟩, ⟨2, .Softmax⟩]

/-- Six-layer architecture, the MAX_LAYERS bound. -/
def sixLayerNet : List Layer :=
  [⟨3, .Linear⟩, ⟨5, .ReLU⟩, ⟨4, .ReLU⟩, ⟨4, .ReLU⟩, ⟨4, .Tanh⟩, ⟨2, .Softmax⟩]

/-- Real-valued reading of LOSSES.ce.gradFormula (App.jsx 90): the residual
yhat_i - y_i. -/
def ceGradReal (yhat y : ℝ) : ℝ := yhat - y

/-- First term of LOSSES.focal.gradFormula (App.jsx 128): the modulating
factor (1 - phat) ^ gamma scaling the residual, where phat abbreviates the
predicted probability of the true class. -/
noncomputable def focalModTerm (gamma phat yhat y : ℝ) : ℝ :=
  (1 - phat) ^ gamma * (yhat - y)

/-- Second term of LOSSES.focal.gradFormula (App.jsx 128): the log-weighted
correction gamma (1 - phat) ^ max(0, gamma - 1) log(phat) phat (delta - yhat),
with Math.max rendered as max over the reals. -/
noncomputable def focalCorrTerm (gamma phat yhat delta : ℝ) : ℝ :=
  gamma * (1 - phat) ^ max 0 (gamma - 1) * Real.log phat * phat * (delta - yhat)

/-- Real-valued reading of the whole focal gradient template (App.jsx 128):
modulation-scaled residual minus the log-weighted correction term. -/
noncomputable def focalGradReal (gamma phat yhat y delta : ℝ) : ℝ :=
  focalModTerm gamma phat yhat y - focalCorrTerm gamma phat yhat delta

/-- seedVal (App.jsx 173-176) over the real numbers: Math.sin becomes Real.sin,
`x - Math.floor(x)` the fractional part, and `toFixed(2)` followed by
parseFloat the rounding round(v * 100) / 100. -/
noncomputable def seedVal (li r c : ℤ) : ℝ :=
  let x : ℝ := Real.sin (((li * 7919 + r * 1013 + c * 431 : ℤ) : ℝ)) * 43758.5453
  let v : ℝ := (x - (⌊x⌋ : ℤ)) * 2 - 1
  ((round (v * 100) : ℤ) : ℝ) / 100

/-- Structural description of the computeParams loop: every breakdown row
multiplies its own endpoint widths, the nin and nout columns are the adjacent
width pairs, and the totals are the sums of the corresponding columns. -/
theorem computeParamsGo_spec (rest : List Layer) : ∀ (prev : Layer) (i : Nat),
    (∀ t ∈ (computeParamsGo i prev rest).2.2, t.W = t.nin * t.nout ∧ t.B = t.nout)
    ∧ (computeParamsGo i prev rest).2.2.map Transition.nin
        = (prev.nodes :: rest.map Layer.nodes).dropLast
    ∧ (computeParamsGo i prev rest).2.2.map Transition.nout = rest.map Layer.nodes
    ∧ (computeParamsGo i prev rest).1
        = ((computeParamsGo i prev rest).2.2.map Transition.W).sum
    ∧ (computeParamsGo i prev rest).2.1
        = ((computeParamsGo i prev rest).2.2.map Transition.B).sum := by
  induction rest with
  | nil => intro prev i; simp [computeParamsGo]
  | cons l rest ih =>
    intro prev i
    obtain ⟨h1, h2, h3, h4, h5⟩ := ih l (i + 1)
    refine ⟨?_, ?_, ?_, ?_, ?_⟩
    · intro t ht
      simp only [computeParamsGo, List.mem_cons] at ht
      rcases ht with h | h
      · subst h; exact ⟨rfl, rfl⟩
      · exact h1 t h
    · simp only [computeParamsGo, List.map_cons]
      rw [h2]
      cases rest <;> simp [List.dropLast]
    · simp only [computeParamsGo, List.map_cons]
      rw [h3]
    · simp only [computeParamsGo, List.map_cons, List.sum_cons]
      rw [h4]
    · simp only [computeParamsGo, List.map_cons, List.sum_cons]
      rw [h5]

/-- Claim C1: computeParams gives, for every transition, weightCount equal to
nIn times nOut and biasCount equal to nOut, where the nIn and nOut columns
list the adjacent layer widths; totalWeights and totalBiases sum those
columns and total is their sum; on the default widths 3, 5, 4, 2 the totals
are 43 weights, 11 biases, 54 parameters. -/
theorem computeParams_spec :
    (∀ layers : List Layer,
      (∀ t ∈ (computeParams layers).breakdown, t.W = t.nin * t.nout ∧ t.B = t.nout)
      ∧ (computeParams layers).breakdown.map Transition.nin
          = (layers.map Layer.nodes).dropLast
      ∧ (computeParams layers).breakdown.map Transition.nout
          = (layers.map Layer.nodes).drop 1
      ∧ (computeParams layers).totalW
          = ((computeParams layers).breakdown.map Transition.W).sum
      ∧ (computeParams layers).totalB
          = ((computeParams layers).breakdown.map Transition.B).sum
      ∧ (computeParams layers).total
          = (computeParams layers).totalW + (computeParams layers).totalB)
    ∧ (computeParams defaultLayers).totalW = 43
    ∧ (computeParams defaultLayers).totalB = 11
    ∧ (computeParams defaultLayers).total = 54 := by
  refine ⟨?_, by decide, by decide, by decide⟩
  intro layers
  cases layers with
  | nil => simp [computeParams]
  | cons l rest =>
    obtain ⟨h1, h2, h3, h4, h5⟩ := computeParamsGo_spec rest l 1
    exact ⟨h1, h2, h3, h4, h5, rfl⟩

/-- Witness for C1 at the default architecture: the first breakdown row of the
default network satisfies the per-transition equations. -/
theorem computeParams_spec_w :
    (⟨1, 3, 5, 15, 5⟩ : Transition).W = (⟨1, 3, 5, 15, 5⟩ : Transition).nin
        * (⟨1, 3, 5, 15, 5⟩ : Transition).nout
    ∧ (⟨1, 3, 5, 15, 5⟩ : Transition).B = (⟨1, 3, 5, 15, 5⟩ : Transition).nout :=
  (computeParams_spec.1 defaultLayers).1 ⟨1, 3, 5, 15, 5⟩ (by decide)

/-- The computeParams loop reads nothing from a layer except its width. -/
theorem computeParamsGo_widths (xs : List Layer) : ∀ (ys : List Layer) (p q : Layer) (i : Nat),
    p.nodes = q.nodes → xs.map Layer.nodes = ys.map Layer.nodes →
    computeParamsGo i p xs = computeParamsGo i q ys := by
  induction xs with
  | nil =>
    intro ys p q i _ hw
    cases ys with
    | nil => rfl
    | cons y ys => simp at hw
  | cons x xs ih =>
    intro ys p q i hp hw
    cases ys with
    | nil => simp at hw
    | cons y ys =>
      simp only [List.map_cons, List.cons.injEq] at hw
      simp only [computeParamsGo, hp, hw.1, ih ys x y (i + 1) hw.1 hw.2]

/-- mapAtIdx leaves the width column unchanged whenever its layer transform
preserves widths. -/
theorem mapAtIdx_widths (f : Layer → Layer) (hf : ∀ l, (f l).nodes = l.nodes) (idx : Nat) :
    ∀ (i : Nat) (xs : List Layer), (mapAtIdx f idx i xs).map Layer.nodes = xs.map Layer.nodes := by
  intro i xs
  induction xs generalizing i with
  | nil => rfl
  | cons l rest ih =>
    simp only [mapAtIdx, List.map_cons, ih (i + 1), List.cons.injEq, and_true]
    split
    · exact hf l
    · rfl

/-- Claim C10: computeParams depends only on the width sequence, so equal
width sequences give identical results and in particular updateAct never
changes any parameter count. -/
theorem computeParams_widths_only :
    (∀ l1 l2 : List Layer, l1.map Layer.nodes = l2.map Layer.nodes →
      computeParams l1 = computeParams l2)
    ∧ (∀ (layers : List Layer) (idx : Nat) (a : Activation),
      computeParams (updateAct layers idx a) = computeParams layers) := by
  have hmain : ∀ l1 l2 : List Layer, l1.map Layer.nodes = l2.map Layer.nodes →
      computeParams l1 = computeParams l2 := by
    intro l1 l2 hw
    cases l1 with
    | nil =>
      cases l2 with
      | nil => rfl
      | cons y ys => simp at hw
    | cons x xs =>
      cases l2 with
      | nil => simp at hw
      | cons y ys =>
        simp only [List.map_cons, List.cons.injEq] at hw
        simp only [computeParams, hw.1, computeParamsGo_widths xs ys x y 1 hw.1 hw.2]
  refine ⟨hmain, ?_⟩
  intro layers idx a
  exact hmain _ _ (mapAtIdx_widths (fun l => { l with activation := a }) (fun _ => rfl) idx 0 layers)

/-- Witness for C10: an activation change on the default network leaves the
parameter counts untouched, and equal-width single-layer networks agree. -/
theorem computeParams_widths_only_w :
    computeParams (updateAct defaultLayers 1 Activation.Tanh) = computeParams defaultLayers
    ∧ computeParams [⟨3, Activation.ReLU⟩] = computeParams [⟨3, Activation.Linear⟩] :=
  ⟨computeParams_widths_only.2 defaultLayers 1 Activation.Tanh,
   computeParams_widths_only.1 [⟨3, Activation.ReLU⟩] [⟨3, Activation.Linear⟩] rfl⟩

/-- Pointwise description of mapAtIdx: the entry whose absolute index (offset
j plus position) equals idx is transformed, all others are returned as is. -/
theorem mapAtIdx_getElem (f : Layer → Layer) (idx : Nat) :
    ∀ (xs : List Layer) (j i : Nat),
      (mapAtIdx f idx j xs)[i]? = if j + i = idx then xs[i]?.map f else xs[i]? := by
  intro xs
  induction xs with
  | nil => intro j i; simp [mapAtIdx]
  | cons l rest ih =>
    intro j i
    cases i with
    | zero =>
      by_cases h : j = idx <;> simp [mapAtIdx, h]
    | succ i =>
      have hcond : j + 1 + i = j + (i + 1) := by omega
      simp only [mapAtIdx, List.getElem?_cons_succ, ih (j + 1) i, hcond]

/-- Claim C5: resizeLayer clamps the new width into [MIN_NODES, MAX_NODES] for
every starting width and every delta, saturates as a no-op at the upper bound
(width 8 plus 1 stays 8), and rewrites exactly the addressed layer. -/
theorem resizeLayer_spec :
    (∀ (w : Nat) (delta : Int),
      MIN_NODES ≤ clampNodes w delta ∧ clampNodes w delta ≤ MAX_NODES)
    ∧ clampNodes MAX_NODES 1 = MAX_NODES
    ∧ (∀ (layers : List Layer) (idx : Nat) (delta : Int) (i : Nat),
      (updateNodes layers idx delta)[i]? =
        if i = idx then layers[i]?.map (fun l => { l with nodes := clampNodes l.nodes delta })
        else layers[i]?) := by
  refine ⟨?_, by decide, ?_⟩
  · intro w delta
    simp only [clampNodes, MIN_NODES, MAX_NODES]
    omega
  · intro layers idx delta i
    rw [updateNodes, mapAtIdx_getElem]
    simp

/-- Claim C3: setActivation is an InvalidOperation on the input or output
layer index; on a hidden layer index it succeeds and replaces exactly the
activation of that layer, leaving width and all other layers unchanged. -/
theorem setActivation_spec :
    (∀ (layers : List Layer) (idx : Nat) (a : Activation),
      idx = 0 ∨ idx = layers.length - 1 →
      setActivation layers idx a = Except.error ModelError.InvalidOperation)
    ∧ (∀ (layers : List Layer) (idx : Nat) (a : Activation),
      0 < idx → idx < layers.length - 1 →
      setActivation layers idx a = Except.ok (updateAct layers idx a)
      ∧ (∀ i : Nat, (updateAct layers idx a)[i]? =
          if i = idx then layers[i]?.map (fun l => { l with activation := a })
          else layers[i]?)) := by
  constructor
  · intro layers idx a h
    rw [setActivation, if_pos h]
  · intro layers idx a h1 h2
    refine ⟨by rw [setActivation, if_neg (by omega)], ?_⟩
    intro i
    rw [updateAct, mapAtIdx_getElem]
    simp

/-- Witness for C3 on the default network: index 0 is rejected, index 1 is a
pure activation replacement. -/
theorem setActivation_spec_w :
    setActivation defaultLayers 0 Activation.Sigmoid = Except.error ModelError.InvalidOperation
    ∧ setActivation defaultLayers 1 Activation.Sigmoid
        = Except.ok (updateAct defaultLayers 1 Activation.Sigmoid) :=
  ⟨setActivation_spec.1 defaultLayers 0 Activation.Sigmoid (Or.inl rfl),
   (setActivation_spec.2 defaultLayers 1 Activation.Sigmoid (by decide) (by decide)).1⟩

/-- removeLayerGo keeps a list unchanged once the running index has passed the
target index. -/
theorem removeLayerGo_of_lt (idx : Nat) :
    ∀ (xs : List Layer) (j : Nat), idx < j → removeLayerGo idx j xs = xs := by
  intro xs
  induction xs with
  | nil => intro j _; rfl
  | cons l rest ih =>
    intro j h
    rw [removeLayerGo, if_neg (by omega), ih (j + 1) (by omega)]

/-- Pointwise description of removeLayerGo on a list that really contains the
target index: entries before it stay, entries after it shift down by one. -/
theorem removeLayerGo_getElem (idx : Nat) :
    ∀ (xs : List Layer) (j : Nat), j ≤ idx → idx - j < xs.length →
      ∀ i : Nat, (removeLayerGo idx j xs)[i]? = if j + i < idx then xs[i]? else xs[i + 1]? := by
  intro xs
  induction xs with
  | nil => intro j _ hlen; simp at hlen
  | cons l rest ih =>
    intro j hj hlen i
    by_cases h : j = idx
    · rw [removeLayerGo, if_pos h, removeLayerGo_of_lt idx rest (j + 1) (by omega),
        if_neg (by omega), List.getElem?_cons_succ]
    · rw [removeLayerGo, if_neg h]
      cases i with
      | zero =>
        rw [if_pos (by omega)]
        simp
      | succ i =>
        have h1 : (l :: removeLayerGo idx (j + 1) rest)[i + 1]?
            = (removeLayerGo idx (j + 1) rest)[i]? := List.getElem?_cons_succ
        rw [h1, ih (j + 1) (by omega) (by simp at hlen; omega) i]
        by_cases hc : j + 1 + i < idx
        · rw [if_pos hc, if_pos (by omega)]
          exact List.getElem?_cons_succ.symm
        · rw [if_neg hc, if_neg (by omega)]
          exact List.getElem?_cons_succ.symm

/-- Length of the removeLayerGo result when the target index is in range. -/
theorem removeLayerGo_length (idx : Nat) :
    ∀ (xs : List Layer) (j : Nat), j ≤ idx → idx - j < xs.length →
      (removeLayerGo idx j xs).length = xs.length - 1 := by
  intro xs
  induction xs with
  | nil => intro j _ hlen; simp at hlen
  | cons l rest ih =>
    intro j hj hlen
    by_cases h : j = idx
    · rw [removeLayerGo, if_pos h, removeLayerGo_of_lt idx rest (j + 1) (by omega)]
      simp
    · have hrest : idx - (j + 1) < rest.length := by simp at hlen; omega
      have hlen2 : 1 ≤ rest.length := by omega
      rw [removeLayerGo, if_neg h]
      simp only [List.length_cons, ih (j + 1) (by omega) hrest]
      omega

/-- Claim C2: removeHiddenLayer rejects the input layer, the output layer and
any removal that would leave the minimum architecture (length at most 3) with
InvalidOperation; on a hidden index of a longer network it removes exactly
that layer, shifting all later layers down by one. -/
theorem removeHiddenLayer_spec :
    (∀ (layers : List Layer) (idx : Nat),
      idx = 0 ∨ idx = layers.length - 1 ∨ layers.length ≤ 3 →
      removeHiddenLayer layers idx = Except.error ModelError.InvalidOperation)
    ∧ (∀ (layers : List Layer) (idx : Nat),
      0 < idx → idx < layers.length - 1 → 3 < layers.length →
      removeHiddenLayer layers idx = Except.ok (removeLayer layers idx)
      ∧ (removeLayer layers idx).length = layers.length - 1
      ∧ (∀ i : Nat, (removeLayer layers idx)[i]? =
          if i < idx then layers[i]? else layers[i + 1]?)) := by
  constructor
  · intro layers idx h
    rw [removeHiddenLayer, if_pos h]
  · intro layers idx h1 h2 h3
    refine ⟨by rw [removeHiddenLayer, if_neg (by omega)], ?_, ?_⟩
    · exact removeLayerGo_length idx layers 0 (by omega) (by omega)
    · intro i
      rw [removeLayer, removeLayerGo_getElem idx layers 0 (by omega) (by omega) i]
      simp

/-- Witness for C2 on the default network: removing the output layer and
shrinking below one hidden layer are rejected, removing hidden layer 1
succeeds and shifts the old layer 2 into slot 1. -/
theorem removeHiddenLayer_spec_w :
    removeHiddenLayer defaultLayers 3 = Except.error ModelError.InvalidOperation
    ∧ removeHiddenLayer threeLayerNet 1 = Except.error ModelError.InvalidOperation
    ∧ removeHiddenLayer defaultLayers 1 = Except.ok (removeLayer defaultLayers 1)
    ∧ (removeLayer defaultLayers 1).length = 3
    ∧ (removeLayer defaultLayers 1)[1]? = defaultLayers[2]? := by
  refine ⟨removeHiddenLayer_spec.1 defaultLayers 3 (Or.inr (Or.inl rfl)),
    removeHiddenLayer_spec.1 threeLayerNet 1 (Or.inr (Or.inr (by decide))),
    (removeHiddenLayer_spec.2 defaultLayers 1 (by decide) (by decide) (by decide)).1,
    (removeHiddenLayer_spec.2 defaultLayers 1 (by decide) (by decide) (by decide)).2.1,
    ?_⟩
  have h := (removeHiddenLayer_spec.2 defaultLayers 1 (by decide) (by decide) (by decide)).2.2 1
  simpa using h

/-- Claim C6: addLayer is the identity at MAX_LAYERS, and below the bound it
grows the list by exactly one entry, the fixed default hidden layer, placed
immediately before the output layer while every existing layer keeps its
content (entries before the insertion point stay in place, the rest shift up
by one). -/
theorem insertHiddenLayer_spec :
    (∀ layers : List Layer, layers.length = MAX_LAYERS → addLayer layers = layers)
    ∧ (∀ layers : List Layer, layers.length < MAX_LAYERS →
      (addLayer layers).length = layers.length + 1
      ∧ (∀ i : Nat, i < layers.length - 1 → (addLayer layers)[i]? = layers[i]?)
      ∧ (addLayer layers)[layers.length - 1]? = some newHiddenLayer
      ∧ (∀ i : Nat, layers.length - 1 ≤ i → (addLayer layers)[i + 1]? = layers[i]?)) := by
  constructor
  · intro layers h
    rw [addLayer, if_pos (le_of_eq h.symm)]
  · intro layers h
    have hneg : ¬ MAX_LAYERS ≤ layers.length := by omega
    have htake : (layers.take (layers.length - 1)).length = layers.length - 1 := by
      simp [List.length_take]
    refine ⟨?_, ?_, ?_, ?_⟩
    · rw [addLayer, if_neg hneg]
      simp only [List.length_append, List.length_cons, htake, List.length_drop]
      omega
    · intro i hi
      rw [addLayer, if_neg hneg, List.getElem?_append, if_pos (by omega),
        List.getElem?_take_of_lt hi]
    · rw [addLayer, if_neg hneg, List.getElem?_append, if_neg (by omega), htake,
        Nat.sub_self, List.getElem?_cons_zero]
    · intro i hi
      rw [addLayer, if_neg hneg, List.getElem?_append, if_neg (by omega), htake]
      have hshift : i + 1 - (layers.length - 1) = i - (layers.length - 1) + 1 := by omega
      rw [hshift, List.getElem?_cons_succ, List.getElem?_drop]
      congr 1
      omega

/-- Witness for C6: the six-layer network is returned unchanged, and on the
default four-layer network the insertion lands in slot 3, right before the
output layer. -/
theorem insertHiddenLayer_spec_w :
    addLayer sixLayerNet = sixLayerNet
    ∧ (addLayer defaultLayers).length = defaultLayers.length + 1
    ∧ (addLayer defaultLayers)[defaultLayers.length - 1]? = some newHiddenLayer :=
  ⟨insertHiddenLayer_spec.1 sixLayerNet rfl,
   (insertHiddenLayer_spec.2 defaultLayers (by decide)).1,
   (insertHiddenLayer_spec.2 defaultLayers (by decide)).2.2.1⟩

/-- Claim C4: the loss selection machine rejects select of a binary-only
descriptor exactly when K differs from 2, accepts every other select, forces
the state to ce on an architecture change that moves K away from 2 while the
active descriptor is binary-only, and performs no other implicit transition. -/
theorem lossSelection_spec :
    (∀ (st : LossId) (K : Nat) (id : LossId),
      requiresBinary id = true → K ≠ 2 → selectLoss st K id = st)
    ∧ (∀ (st : LossId) (K : Nat) (id : LossId),
      ¬(requiresBinary id = true ∧ K ≠ 2) → selectLoss st K id = id)
    ∧ (∀ (st : LossId) (K : Nat),
      requiresBinary st = true → K ≠ 2 → architectureChanged st K = LossId.ce)
    ∧ (∀ (st : LossId) (K : Nat),
      ¬(requiresBinary st = true ∧ K ≠ 2) → architectureChanged st K = st) := by
  refine ⟨?_, ?_, ?_, ?_⟩
  · intro st K id h1 h2
    rw [selectLoss, if_pos ⟨h1, h2⟩]
  · intro st K id h
    rw [selectLoss, if_neg h]
  · intro st K h1 h2
    rw [architectureChanged, if_pos ⟨h1, h2⟩]
  · intro st K h
    rw [architectureChanged, if_neg h]

/-- Witness for C4, the scenario of the spec: selecting bce at K = 3 is a
rejected no-op, bce is selectable at K = 2, resizing the output back to 3
while bce is active forces ce, and an architecture change with K = 2 or a
non-binary active loss changes nothing. -/
theorem lossSelection_spec_w :
    selectLoss LossId.ce 3 LossId.bce = LossId.ce
    ∧ selectLoss LossId.ce 2 LossId.bce = LossId.bce
    ∧ architectureChanged LossId.bce 3 = LossId.ce
    ∧ architectureChanged LossId.bce 2 = LossId.bce
    ∧ architectureChanged LossId.focal 3 = LossId.focal :=
  ⟨lossSelection_spec.1 LossId.ce 3 LossId.bce rfl (by decide),
   lossSelection_spec.2.1 LossId.ce 2 LossId.bce (by decide),
   lossSelection_spec.2.2.1 LossId.bce 3 rfl (by decide),
   lossSelection_spec.2.2.2 LossId.bce 2 (by decide),
   lossSelection_spec.2.2.2 LossId.focal 3 (by decide)⟩

/-- Claim C7, evidence of a code bug: on the two-transition network with
activations ReLU then Softmax, compTex nests the softmax wrapper innermost,
applied directly to the literal input symbol x, and puts the generic ReLU
sigma symbol outermost, because the descending loop of App.jsx 799-805 wraps
its accumulator so that the iteration for the output layer runs first. The
claim (and standard forward-pass notation) want softmax outermost. -/
theorem compTex_softmax_innermost :
    compTex threeLayerNet = "f(x) = " ++ wrapTex 1 Activation.ReLU (wrapTex 2 Activation.Softmax "x")
    ∧ compTex threeLayerNet =
        "f(x) = \\sigma_\x7b\\scriptscriptstyle\\text\x7bReLU\x7d\x7d\\!\\bigl(W^\x7b(1)\x7d\\operatorname\x7bsoftmax\x7d\\!\\bigl(W^\x7b(2)\x7dx + b^\x7b(2)\x7d\\bigr) + b^\x7b(1)\x7d\\bigr)"
    ∧ actWrapperTex Activation.ReLU ≠ actWrapperTex Activation.Softmax := by
  refine ⟨rfl, ?_, by decide⟩
  rfl

/-- Claim C8: the focal gradient template is exactly the difference of the
modulation-scaled residual and the log-weighted correction term, and at
gamma = 0 the modulating factor collapses to 1 and the correction term to 0,
leaving precisely the cross-entropy residual. -/
theorem focalGrad_spec :
    (∀ gamma phat yhat y delta : ℝ,
      focalGradReal gamma phat yhat y delta
        = focalModTerm gamma phat yhat y - focalCorrTerm gamma phat yhat delta)
    ∧ (∀ phat yhat y delta : ℝ,
      focalGradReal 0 phat yhat y delta = ceGradReal yhat y) := by
  refine ⟨fun _ _ _ _ _ => rfl, ?_⟩
  intro phat yhat y delta
  simp [focalGradReal, focalModTerm, focalCorrTerm, ceGradReal, Real.rpow_zero]

/-- Bounds of the seedVal pipeline for an arbitrary real input: the fractional
part lies in [0, 1), so after scaling to [-1, 1) and rounding to hundredths
the value stays within [-1, 1]. -/
theorem seedValCore_bounds (x : ℝ) :
    (-1 : ℝ) ≤ ((round (((x - (⌊x⌋ : ℤ)) * 2 - 1) * 100) : ℤ) : ℝ) / 100
    ∧ ((round (((x - (⌊x⌋ : ℤ)) * 2 - 1) * 100) : ℤ) : ℝ) / 100 ≤ 1 := by
  have h0 : (0 : ℝ) ≤ x - (⌊x⌋ : ℤ) := by
    have := Int.floor_le x
    linarith
  have h1 : x - (⌊x⌋ : ℤ) < 1 := by
    have := Int.lt_floor_add_one x
    linarith
  set v : ℝ := (x - (⌊x⌋ : ℤ)) * 2 - 1 with hv
  have hv0 : (-1 : ℝ) ≤ v := by rw [hv]; linarith
  have hv1 : v < 1 := by rw [hv]; linarith
  have hk0 : (-100 : ℤ) ≤ round (v * 100) := by
    rw [round_eq]
    refine Int.le_floor.mpr ?_
    push_cast
    linarith
  have hk1 : round (v * 100) ≤ 100 := by
    rw [round_eq]
    have h2 : ⌊v * 100 + 1 / 2⌋ < 101 := Int.floor_lt.mpr (by push_cast; linarith)
    omega
  constructor
  · refine (le_div_iff₀ (by norm_num : (0 : ℝ) < 100)).mpr ?_
    have : ((-100 : ℤ) : ℝ) ≤ (round (v * 100) : ℝ) := by exact_mod_cast hk0
    push_cast at this ⊢
    linarith
  · refine (div_le_one (by norm_num : (0 : ℝ) < 100)).mpr ?_
    exact_mod_cast hk1

/-- Claim C9: seedVal is a deterministic function of its three integer inputs
whose value always lies in [-1, 1] and is an exact multiple of one hundredth,
i.e. rounded to two decimal places. -/
theorem seedVal_spec : ∀ li r c : ℤ,
    ((-1 : ℝ) ≤ seedVal li r c ∧ seedVal li r c ≤ 1)
    ∧ (∃ k : ℤ, seedVal li r c = (k : ℝ) / 100)
    ∧ (∀ li2 r2 c2 : ℤ, li2 = li → r2 = r → c2 = c →
        seedVal li2 r2 c2 = seedVal li r c) := by
  intro li r c
  refine ⟨⟨(seedValCore_bounds _).1, (seedValCore_bounds _).2⟩, ⟨_, rfl⟩, ?_⟩
  intro li2 r2 c2 h1 h2 h3
  rw [h1, h2, h3]

/-- Witness for C9 at the concrete triple (1, 0, 0). -/
theorem seedVal_spec_w :
    ((-1 : ℝ) ≤ seedVal 1 0 0 ∧ seedVal 1 0 0 ≤ 1)
    ∧ seedVal 1 0 0 = seedVal 1 0 0 :=
  ⟨(seedVal_spec 1 0 0).1, (seedVal_spec 1 0 0).2.2 1 0 0 rfl rfl rfl⟩

end NNet
